import Mathlib

/-!
Shallow embedding of the `Simulacio` discrete-event simulation sources
(`SimulacioExercici1/pythonversion.py`, `pyhtonsimulationwithstatistics.py`,
`pyhtonsimulationWOAWGraph.py`, `PySimWOAssemblerWorks.py`) together with
theorems settling the specification claims.  Simulated times and sampled
values are modelled as rationals, Python integers as `ℤ`/`ℕ`.
-/

namespace Simulacio

/-! ## Global parameters (identical across the four variants) -/

def MAC_CAPACITY : ℤ := 6
def CAM_CAPACITY : ℤ := 12
def SIMULATION_TIME : ℚ := 1440
def BATCH_SIZE : ℕ := 200

def ADVANCE_SERVICE_MEAN : ℚ := 3/4
def ADVANCE_SERVICE_ERR_MEAN : ℚ := 15
def ADVANCE_SERVICE_ERR_DEV : ℚ := 2
def ADVANCE_CAM_MEAN : ℚ := 745/2
def ADVANCE_CAM_DEV : ℚ := 5/2

/-! ## Distribution helpers

`normal_dist(mean, stdev)` in every variant is
`return max(0, random.gauss(mean, stdev))`.  The library sampler
`random.gauss` is modelled as an explicit function argument `gauss`
(an arbitrary draw, as the library may return any real), so the
source body `max(0, gauss(mean, stdev))` is embedded verbatim. -/

def normal_dist (gauss : ℚ → ℚ → ℚ) (mean stdev : ℚ) : ℚ :=
  max 0 (gauss mean stdev)

/-! ## StatisticsCollector.calculate_time_weighted_average

Source (`pyhtonsimulationwithstatistics.py` lines 83–98, identical in
`pyhtonsimulationWOAWGraph.py` and `PySimWOAssemblerWorks.py`):

    if len(data_list) <= 1: return 0
    total_area = 0
    total_time = self.env.now
    for i in range(len(data_list) - 1):
        time_start, value = data_list[i]
        time_end = data_list[i+1][0]
        total_area += value * (time_end - time_start)
    last_value = data_list[-1][1]
    last_time = data_list[-1][0]
    total_area += last_value * (total_time - last_time)
    return total_area / total_time if total_time > 0 else 0

The loop over consecutive pairs is `segments_area`; `env.now` is the
explicit argument `now`. -/

def segments_area : List (ℚ × ℚ) → ℚ
  | (t1, v1) :: (t2, v2) :: rest => v1 * (t2 - t1) + segments_area ((t2, v2) :: rest)
  | _ => 0

def calculate_time_weighted_average (now : ℚ) (data_list : List (ℚ × ℚ)) : ℚ :=
  if data_list.length ≤ 1 then 0
  else
    match data_list.getLast? with
    | none => 0
    | some (last_time, last_value) =>
        let total_area := segments_area data_list + last_value * (now - last_time)
        if 0 < now then total_area / now else 0

/-! ## StatisticsCollector.record_queue_length

Source (`PySimWOAssemblerWorks.py` lines 83–91; `pyhtonsimulationWOAWGraph.py`
lines 82–91 is the same computation with the guard written
`math.ceil(length / BATCH_SIZE) if length > 0 else 0`):

    length = len(waiting_jobs_list)
    if is_cam_queue and length > 0:
        length = math.ceil(length / BATCH_SIZE)
    if not queue_list or queue_list[-1][1] != length:
        queue_list.append((self.env.now, length))

`recorded_length` is the value actually appended; `math.ceil(n / 200)`
on a natural `n` is `(n + 199) / 200` in natural division.
The variant in `pyhtonsimulationwithstatistics.py` (lines 79–81) takes the
precomputed `length` directly, i.e. it is `record_queue_length` with
`is_cam_queue = false`. -/

def recorded_length (n : ℕ) (is_cam_queue : Bool) : ℕ :=
  if is_cam_queue ∧ 0 < n then (n + (BATCH_SIZE - 1)) / BATCH_SIZE else n

def record_queue_length (queue_list : List (ℚ × ℕ)) (now : ℚ) (n : ℕ)
    (is_cam_queue : Bool) : List (ℚ × ℕ) :=
  match queue_list.getLast? with
  | none => queue_list ++ [(now, recorded_length n is_cam_queue)]
  | some last =>
      if last.2 ≠ recorded_length n is_cam_queue then
        queue_list ++ [(now, recorded_length n is_cam_queue)]
      else queue_list

/-! ## The lossy batch gate of `job_process`

Source (`pyhtonsimulationWOAWGraph.py` lines 284–313, `PySimWOAssemblerWorks.py`
lines 206–235; both lanes are symmetric so one step function suffices):

    ASSEMBLEQUET += 1
    if ASSEMBLEQUET == BATCH_SIZE:   # only this job proceeds
        ASSEMBLEQUET = 0
        ... request cam, serve, TERMINATE (jobs_terminated += 1) ...
    # else: the job exits the generator without yielding or terminating

`lossy_gate_step` performs the increment and the conditional reset; the
returned `Bool` is the `ASSEMBLEQUET == BATCH_SIZE` test, i.e. whether
this arrival proceeds.  The increment, the comparison and the reset all
happen between suspension points, hence they form one atomic step of the
state machine.  The counter is a Python integer, embedded as `ℤ`. -/

def lossy_gate_step (counter : ℤ) : ℤ × Bool :=
  let c := counter + 1
  if c = (BATCH_SIZE : ℤ) then (0, true) else (c, false)

/-- Processes a sequence of arrivals through one lane's lossy gate.
Each arrival is an arbitrary payload (for example its `(arrival_time, job_id)`
pair); the result is the final counter together with the payloads of the
arrivals that proceeded past the gate, unchanged and in order. -/
def lossy_gate_run {α : Type} : ℤ → List α → ℤ × List α
  | c, [] => (c, [])
  | c, a :: rest =>
      let step := lossy_gate_step c
      let tail := lossy_gate_run step.1 rest
      (tail.1, if step.2 then a :: tail.2 else tail.2)

/-! ## BatchAssembler (release-all variants)

Source (`pyhtonsimulationwithstatistics.py` lines 39–57):

    def assemble(self, job_id):
        self.batch_count += 1
        self.waiting_jobs.append(job_id)
        if self.batch_count >= self.batch_size:
            release = self.release_event          # the event waiters hold
            self.batch_count = 0
            self.release_event = self.env.event() # fresh event for next batch
            release.succeed()                      # fires the old event
        return self.release_event                  # what THIS caller yields

`PySimWOAssemblerWorks.py` lines 42–58 is identical except that
`self.stats.assembled_batches += 1` is executed inside the `if` (once per
release).  SimPy events are modelled by numbering them: event `e` is the
`e`-th object created by `env.event()`; `release_epoch` is the number of
the assembler's current `release_event`, and `fired` is the set of event
numbers on which `.succeed()` has been called — an event numbered `e`
has fired iff `e < fired` since events are succeeded in creation order.
A caller of `assemble` yields the returned event number and resumes once
that number fires. -/

structure AssemblerState where
  batch_count : ℕ
  waiting_jobs : List ℕ
  release_epoch : ℕ
  fired : ℕ
  assembled_batches : ℕ
  deriving Repr, DecidableEq

def AssemblerState.init : AssemblerState :=
  { batch_count := 0, waiting_jobs := [], release_epoch := 0, fired := 0,
    assembled_batches := 0 }

/-- One call of `BatchAssembler.assemble` (the `PySimWOAssemblerWorks.py`
variant, which increments `assembled_batches` inside the release branch).
Returns the new state and the event number the caller yields on.
For the `pyhtonsimulationwithstatistics.py` variant the
`assembled_batches` field is simply ignored (there the increment is done
by the resumed jobs, see `member_batch_increments`). -/
def assemble (batch_size : ℕ) (s : AssemblerState) (job_id : ℕ) :
    AssemblerState × ℕ :=
  let count := s.batch_count + 1
  let waiting := s.waiting_jobs ++ [job_id]
  if batch_size ≤ count then
    ({ batch_count := 0, waiting_jobs := waiting,
       release_epoch := s.release_epoch + 1, fired := s.release_epoch + 1,
       assembled_batches := s.assembled_batches + 1 },
     s.release_epoch + 1)
  else
    ({ s with batch_count := count, waiting_jobs := waiting }, s.release_epoch)

/-- Runs a sequence of `assemble` calls; returns the final state and, per
caller in order, the pair `(job_id, event number the caller waits on)`. -/
def assemble_run (batch_size : ℕ) : AssemblerState → List ℕ →
    AssemblerState × List (ℕ × ℕ)
  | s, [] => (s, [])
  | s, j :: rest =>
      let step := assemble batch_size s j
      let tail := assemble_run batch_size step.1 rest
      (tail.1, (j, step.2) :: tail.2)

/-- The callers resumed by the end of a run: those whose awaited event
number has fired (`e < fired`). -/
def resumed_jobs (final : AssemblerState) (waits : List (ℕ × ℕ)) : List ℕ :=
  (waits.filter (fun w => w.2 < final.fired)).map (·.1)

/-- `pyhtonsimulationwithstatistics.py` lines 189–192: each member of a
released batch, upon resuming, executes

    if quet_assembler.batch_count == 0:
        stats.assembled_batches += 1

All members of a batch resume at the release instant, before any further
arrival (inter-arrival times are strictly positive), so each resumed job
sees the state left by the triggering call.  This counts the resulting
increments of `stats.assembled_batches`. -/
def member_batch_increments (final : AssemblerState) (waits : List (ℕ × ℕ)) : ℕ :=
  if final.batch_count = 0 then (resumed_jobs final waits).length else 0

/-! ## run_simulation setup (configuration handling)

Source (`pyhtonsimulationwithstatistics.py` lines 261–289,
`PySimWOAssemblerWorks.py` lines 293–319): the function body creates the
SimPy environment, the two `PriorityResource`s, the two `BatchAssembler`s
and the collector, starts the generator and calls `env.run(until=until_time)`.
It contains NO validation of its own and no `ConfigurationError` class
exists anywhere in the repository.  The only checks that can stop the run
before any event executes come from the SimPy library:
`simpy.Resource.__init__` raises `ValueError` when `capacity <= 0`, and
`Environment.run(until)` raises `ValueError` when `until <= now` (= 0).
`BatchAssembler.__init__` and `StatisticsCollector.__init__` store their
arguments unchecked, so `batch_size` is never inspected at setup. -/

structure Config where
  mac_capacity : ℤ
  cam_capacity : ℤ
  batch_size : ℤ
  until_time : ℚ
  deriving Repr, DecidableEq

inductive SetupError where
  | valueErrorCapacity   -- raised by the simpy library, not repository code
  | valueErrorUntil      -- raised by the simpy library, not repository code
  deriving Repr, DecidableEq

def run_simulation_setup (cfg : Config) : Except SetupError Unit :=
  if cfg.mac_capacity ≤ 0 then .error .valueErrorCapacity
  else if cfg.cam_capacity ≤ 0 then .error .valueErrorCapacity
  else if cfg.until_time ≤ 0 then .error .valueErrorUntil
  else .ok ()

/-! ## job_generator priority assignment

The three statistics-bearing variants (`pyhtonsimulationwithstatistics.py`
lines 249–254, `pyhtonsimulationWOAWGraph.py` lines 360–365,
`PySimWOAssemblerWorks.py` lines 282–287):

    if random.random() <= 0.1:
        priority = 1
        stats.priority_1_count += 1
    else:
        priority = 0

`pythonversion.py` lines 143–151:

    if random.random() < 0.9:
        priority = 1
    else:
        priority = 0

(and `pythonversion.py` has no statistics collector at all).  The uniform
draw is the explicit argument `u`. -/

def assign_priority_stats (u : ℚ) : ℕ :=
  if u ≤ 1/10 then 1 else 0

def priority_1_count_increment (u : ℚ) : ℕ :=
  if u ≤ 1/10 then 1 else 0

def assign_priority_pythonversion (u : ℚ) : ℕ :=
  if u < 9/10 then 1 else 0

/-! ## Whole-run determinism model

`PySimWOAssemblerWorks.py` lines 322–325 seed the global pseudo-random
generator once (`random.seed(42)`) and call `run_simulation(SIMULATION_TIME)`.
The run is single-threaded and cooperative: every random draw is taken from
the one seeded stream, and ties in the event queue are broken by SimPy's
monotone event ids, so the whole run is a function of the configuration and
the seed.  The seeded Mersenne–Twister stream is modelled by a deterministic
stream of rationals in `[0, 1)` derived from the seed (a linear congruential
stand-in: any deterministic function of the seed has the property that
matters here), and the library samplers `random.uniform`, `random.random`
and `random.gauss` are modelled as deterministic functions of that stream.
The job flow embedded is the lossy-gate variant of `job_process`
(`PySimWOAssemblerWorks.py`), folded over the generated jobs with the same
per-job draws the source consumes: inter-arrival, priority, stage-A
service, error check, branch, stage-B service. -/

def lcg_next (s : ℕ) : ℕ :=
  (6364136223846793005 * s + 1442695040888963407) % 18446744073709551616

def lcg_stream (seed : ℕ) : ℕ → ℕ
  | 0 => lcg_next seed
  | n + 1 => lcg_next (lcg_stream seed n)

/-- The `i`-th unit-interval draw of the stream seeded with `seed`. -/
def unit_draw (seed i : ℕ) : ℚ :=
  ((lcg_stream seed i) % 1000000 : ℕ) / 1000000

/-- Deterministic stand-in for `random.gauss(mean, stdev)` as a function of
one unit draw `u`. -/
def gauss_draw (u mean stdev : ℚ) : ℚ :=
  mean + (u - 1/2) * (6 * stdev)

structure RunState where
  jobs_generated : ℕ
  jobs_terminated : ℕ
  priority_1_count : ℕ
  assemblequeo : ℤ
  assemblequet : ℤ
  clock : ℚ
  system_time_sum : ℚ
  deriving Repr, DecidableEq

def RunState.init : RunState :=
  { jobs_generated := 0, jobs_terminated := 0, priority_1_count := 0,
    assemblequeo := 0, assemblequet := 0, clock := 0, system_time_sum := 0 }

/-- One generated job of the lossy-variant run: `i` is the job index, the
six draws are the ones `job_generator`/`job_process` consume for this job. -/
def job_step (seed : ℕ) (s : RunState) (i : ℕ) : RunState :=
  let u_arr := unit_draw seed (6 * i)
  let u_pri := unit_draw seed (6 * i + 1)
  let u_svc := unit_draw seed (6 * i + 2)
  let u_err := unit_draw seed (6 * i + 3)
  let u_branch := unit_draw seed (6 * i + 4)
  let u_cam := unit_draw seed (6 * i + 5)
  -- GENERATE (0.15, 0.05): inter-arrival uniform on [0.1, 0.2]
  let clock := s.clock + (1/10 + u_arr * (1/10))
  let pri_hit : Bool := u_pri ≤ 1/10
  let service := u_svc + (if u_err ≥ 99/100 then
      normal_dist (gauss_draw u_err) ADVANCE_SERVICE_ERR_MEAN ADVANCE_SERVICE_ERR_DEV
    else 0)
  let base :=
    { s with
      jobs_generated := s.jobs_generated + 1
      priority_1_count := s.priority_1_count + (if pri_hit then 1 else 0)
      clock := clock }
  if u_branch < 1/2 then
    let g := lossy_gate_step s.assemblequet
    { base with
      assemblequet := g.1
      jobs_terminated := base.jobs_terminated + (if g.2 then 1 else 0)
      system_time_sum := base.system_time_sum +
        (if g.2 then service + normal_dist (gauss_draw u_cam) ADVANCE_CAM_MEAN ADVANCE_CAM_DEV
         else 0) }
  else
    let g := lossy_gate_step s.assemblequeo
    { base with
      assemblequeo := g.1
      jobs_terminated := base.jobs_terminated + (if g.2 then 1 else 0)
      system_time_sum := base.system_time_sum +
        (if g.2 then service + normal_dist (gauss_draw u_cam) ADVANCE_CAM_MEAN ADVANCE_CAM_DEV
         else 0) }

/-- The final report of a run: the integer counters the claims mention and
the computed averages. -/
structure Report where
  jobs_generated : ℕ
  jobs_terminated : ℕ
  priority_1_count : ℕ
  total_time : ℚ
  avg_system_time : ℚ
  deriving Repr, DecidableEq

def run_report (max_jobs seed : ℕ) : Report :=
  let final := (List.range max_jobs).foldl (job_step seed) RunState.init
  { jobs_generated := final.jobs_generated
    jobs_terminated := final.jobs_terminated
    priority_1_count := final.priority_1_count
    total_time := final.clock
    avg_system_time :=
      if final.jobs_terminated = 0 then 0
      else final.system_time_sum / (final.jobs_terminated : ℚ) }

/-! # Theorems settling the claims -/

/-- Claim C3: `calculate_time_weighted_average` on the step sequence
`[(0,0),(2,3),(5,1)]` with the clock at `10` returns exactly
`(0*2 + 3*3 + 1*5)/10 = 1.4`, and for every series with fewer than two
samples (whatever the clock) it returns `0`. -/
theorem time_weighted_average_correct :
    calculate_time_weighted_average 10 [(0, 0), (2, 3), (5, 1)] = 7/5 ∧
    ∀ (now : ℚ) (l : List (ℚ × ℚ)), l.length < 2 →
      calculate_time_weighted_average now l = 0 := by
  constructor
  · norm_num [calculate_time_weighted_average, segments_area]
  · intro now l h
    have hl : l.length ≤ 1 := by omega
    simp [calculate_time_weighted_average, hl]

/-- Witness for C3: the second conjunct applied to a concrete one-sample
series. -/
theorem time_weighted_average_correct_witness :
    calculate_time_weighted_average 10 [(0, 0), (2, 3), (5, 1)] = 7/5 ∧
    calculate_time_weighted_average 10 [(3, 5)] = 0 :=
  ⟨time_weighted_average_correct.1,
   time_weighted_average_correct.2 10 [(3, 5)] (by simp)⟩

/-- Claim C8: for every mean, standard deviation and library draw, the value
of `normal_dist` is nonnegative; a draw below zero is floored to zero (the
function returns a value rather than raising), and a nonnegative draw is
passed through unchanged, so no negative delay is ever handed to
`env.timeout`. -/
theorem normal_dist_clamped (gauss : ℚ → ℚ → ℚ) (mean stdev : ℚ) :
    0 ≤ normal_dist gauss mean stdev ∧
    (gauss mean stdev < 0 → normal_dist gauss mean stdev = 0) ∧
    (0 ≤ gauss mean stdev → normal_dist gauss mean stdev = gauss mean stdev) := by
  unfold normal_dist
  exact ⟨le_max_left 0 _, fun h => max_eq_left h.le, fun h => max_eq_right h⟩

/-- Witness for C8: a sampler that always draws `-5` is floored to a zero
delay. -/
theorem normal_dist_clamped_witness :
    0 ≤ normal_dist (fun _ _ => (-5 : ℚ)) ADVANCE_CAM_MEAN ADVANCE_CAM_DEV ∧
    normal_dist (fun _ _ => (-5 : ℚ)) ADVANCE_CAM_MEAN ADVANCE_CAM_DEV = 0 :=
  ⟨(normal_dist_clamped (fun _ _ => (-5 : ℚ)) ADVANCE_CAM_MEAN ADVANCE_CAM_DEV).1,
   (normal_dist_clamped (fun _ _ => (-5 : ℚ)) ADVANCE_CAM_MEAN ADVANCE_CAM_DEV).2.1
     (by norm_num)⟩

/-- Counterexample for C5: the claim quantifies over every source variant,
but in `pythonversion.py` the generator assigns `priority = 1` when the
draw is `< 0.9`; at the draw `0.5` it assigns priority 1 although
`0.5 ≤ 0.1` is false, so "priority = 1 exactly when the draw is ≤ 0.1"
fails for that variant. -/
theorem priority_rule_differs_in_pythonversion :
    assign_priority_pythonversion (1/2) = 1 ∧ ¬ ((1/2 : ℚ) ≤ 1/10) := by
  constructor
  · norm_num [assign_priority_pythonversion]
  · norm_num

/-- Claim C5 (amended): in the three statistics-bearing variants the
generator assigns `priority = 1` exactly when the draw is `≤ 0.1` and
increments `priority_1_count` exactly then; in `pythonversion.py` it
assigns `priority = 1` exactly when the draw is `< 0.9` (and that variant
keeps no counter). -/
theorem assign_priority_characterization (u : ℚ) :
    (assign_priority_stats u = 1 ↔ u ≤ 1/10) ∧
    (assign_priority_stats u = 0 ↔ ¬ u ≤ 1/10) ∧
    (priority_1_count_increment u = 1 ↔ assign_priority_stats u = 1) ∧
    (priority_1_count_increment u = 0 ↔ assign_priority_stats u = 0) ∧
    (assign_priority_pythonversion u = 1 ↔ u < 9/10) := by
  by_cases h : u ≤ 1/10 <;> by_cases h' : u < 9/10 <;>
    simp [assign_priority_stats, priority_1_count_increment,
      assign_priority_pythonversion, h, h']

/-- Witness for C5 (amended): the characterization applied at the draws
`0.05` and `0.95`. -/
theorem assign_priority_characterization_witness :
    assign_priority_stats (1/20) = 1 ∧ assign_priority_pythonversion (19/20) ≠ 1 :=
  ⟨(assign_priority_characterization (1/20)).1.mpr (by norm_num),
   fun h => by
     have := (assign_priority_characterization (19/20)).2.2.2.2.mp h
     norm_num at this⟩

/-- Counterexample for C4: `run_simulation` raises nothing for
`batch_size = 0 < 1`; with valid capacities and horizon the setup
succeeds and the run starts, so no `ConfigurationError` (which the
repository does not even define) is raised for an invalid batch size. -/
theorem setup_accepts_nonpositive_batch_size :
    run_simulation_setup
      { mac_capacity := 6, cam_capacity := 12, batch_size := 0,
        until_time := 1440 } = .ok () := by
  norm_num [run_simulation_setup]

/-- Claim C4 (amended): `run_simulation` performs no validation of its own
and the repository defines no `ConfigurationError`; setup fails before any
event executes exactly when a capacity or the horizon is non-positive
(`ValueError`s raised by the SimPy library, not by repository code), and
the outcome is entirely independent of `batch_size`. -/
theorem run_simulation_setup_characterization (cfg : Config) :
    (run_simulation_setup cfg = .ok () ↔
      0 < cfg.mac_capacity ∧ 0 < cfg.cam_capacity ∧ 0 < cfg.until_time) ∧
    (∀ b : ℤ, run_simulation_setup { cfg with batch_size := b } =
      run_simulation_setup cfg) := by
  constructor
  · unfold run_simulation_setup
    split_ifs with h1 h2 h3
    · exact iff_of_false (by simp) (fun ⟨a, _, _⟩ => absurd a (not_lt.mpr h1))
    · exact iff_of_false (by simp) (fun ⟨_, a, _⟩ => absurd a (not_lt.mpr h2))
    · exact iff_of_false (by simp) (fun ⟨_, _, a⟩ => absurd a (not_lt.mpr h3))
    · exact iff_of_true rfl ⟨not_le.mp h1, not_le.mp h2, not_le.mp h3⟩
  · intro b
    rfl

/-- Witness for C4 (amended): the characterization applied to the default
configuration of the sources. -/
theorem run_simulation_setup_characterization_witness :
    run_simulation_setup
      { mac_capacity := MAC_CAPACITY, cam_capacity := CAM_CAPACITY,
        batch_size := (BATCH_SIZE : ℤ), until_time := SIMULATION_TIME } = .ok () :=
  (run_simulation_setup_characterization _).1.mpr
    (by norm_num [MAC_CAPACITY, CAM_CAPACITY, SIMULATION_TIME])

/-- Claim C6: `record_queue_length` appends `(now, value)` only when the
value differs from the series' last recorded value; recording the same
value again leaves the series unchanged; an empty series always receives
the sample; and the run-length-encoding invariant (no two consecutive
samples share a value) is preserved by every recording. -/
theorem record_queue_length_change_only (ql : List (ℚ × ℕ)) (now : ℚ) (n : ℕ)
    (cam : Bool) :
    (∀ t : ℚ, ql.getLast? = some (t, recorded_length n cam) →
      record_queue_length ql now n cam = ql) ∧
    (∀ last : ℚ × ℕ, ql.getLast? = some last → last.2 ≠ recorded_length n cam →
      record_queue_length ql now n cam = ql ++ [(now, recorded_length n cam)]) ∧
    (ql = [] → record_queue_length ql now n cam = [(now, recorded_length n cam)]) ∧
    (List.Chain' (fun a b : ℚ × ℕ => a.2 ≠ b.2) ql →
      List.Chain' (fun a b : ℚ × ℕ => a.2 ≠ b.2)
        (record_queue_length ql now n cam)) := by
  refine ⟨?_, ?_, ?_, ?_⟩
  · intro t h
    simp [record_queue_length, h]
  · intro last h hne
    simp [record_queue_length, h, hne]
  · intro h
    subst h
    simp [record_queue_length]
  · intro hchain
    unfold record_queue_length
    cases hql : ql.getLast? with
    | none =>
        have hnil : ql = [] := List.getLast?_eq_none_iff.mp hql
        subst hnil
        simp
    | some last =>
        by_cases hne : last.2 ≠ recorded_length n cam
        · simp only [if_pos hne]
          refine hchain.append (List.chain'_singleton _) ?_
          intro x hx y hy
          rw [hql] at hx
          simp only [Option.mem_def, Option.some.injEq] at hx
          simp only [List.head?_cons, Option.mem_def, Option.some.injEq] at hy
          subst hx
          subst hy
          exact hne
        · simp only [if_neg hne]
          exact hchain

/-- Witness for C6: a change is appended, a repeat is a no-op. -/
theorem record_queue_length_change_only_witness :
    record_queue_length [((0 : ℚ), 3)] 5 3 false = [((0 : ℚ), 3)] ∧
    record_queue_length [((0 : ℚ), 0)] 5 3 false = [((0 : ℚ), 0), ((5 : ℚ), 3)] := by
  constructor
  · exact (record_queue_length_change_only [((0 : ℚ), 3)] 5 3 false).1 0 (by simp [recorded_length])
  · exact (record_queue_length_change_only [((0 : ℚ), 0)] 5 3 false).2.1 ((0 : ℚ), 0)
      (by simp) (by simp [recorded_length])

/-- Claim C9: with `is_cam_queue = true`, the value recorded for a lane with
`n` waiting jobs is `⌈n / BATCH_SIZE⌉` (in particular `0` when `n = 0`),
i.e. the CAM series is measured in blocks of `BATCH_SIZE` jobs, whereas
with `is_cam_queue = false` (the MAC series) the raw job count `n` is
recorded; every sample `record_queue_length` appends to a CAM series
carries that block value. -/
theorem cam_queue_recorded_in_blocks (ql : List (ℚ × ℕ)) (now : ℚ) (n : ℕ) :
    recorded_length n true = ⌈(n : ℚ) / (BATCH_SIZE : ℚ)⌉₊ ∧
    recorded_length 0 true = 0 ∧
    recorded_length n false = n ∧
    (record_queue_length ql now n true = ql ∨
      record_queue_length ql now n true =
        ql ++ [(now, ⌈(n : ℚ) / (BATCH_SIZE : ℚ)⌉₊)]) := by
  have hceil : ∀ m : ℕ, recorded_length m true = ⌈(m : ℚ) / (BATCH_SIZE : ℚ)⌉₊ := by
    intro m
    rcases Nat.eq_zero_or_pos m with hm | hm
    · subst hm
      norm_num [recorded_length]
    · have hrec : recorded_length m true = (m + 199) / 200 := by
        simp [recorded_length, hm, BATCH_SIZE]
      have hB : ((BATCH_SIZE : ℕ) : ℚ) = 200 := by norm_num [BATCH_SIZE]
      set k := (m + 199) / 200 with hk
      have hk1 : 1 ≤ k := by omega
      have hub : m ≤ k * 200 := by omega
      have hlb : (k - 1) * 200 < m := by omega
      rw [hrec, hB]
      symm
      rw [Nat.ceil_eq_iff (by omega : k ≠ 0)]
      constructor
      · rw [lt_div_iff₀ (by norm_num : (0 : ℚ) < 200)]
        exact_mod_cast hlb
      · rw [div_le_iff₀ (by norm_num : (0 : ℚ) < 200)]
        exact_mod_cast hub
  refine ⟨hceil n, by norm_num [recorded_length], by simp [recorded_length], ?_⟩
  rw [← hceil n]
  unfold record_queue_length
  cases hql : ql.getLast? with
  | none => right; rfl
  | some last =>
      by_cases hne : last.2 ≠ recorded_length n true
      · right; simp [hne]
      · left; simp [hne]

/-- Witness for C9: `350` waiting jobs are recorded as `2` blocks, `0` jobs
as `0`, and the MAC series keeps raw counts. -/
theorem cam_queue_recorded_in_blocks_witness :
    recorded_length 350 true = 2 ∧ recorded_length 0 true = 0 ∧
    recorded_length 350 false = 350 := by
  refine ⟨?_, (cam_queue_recorded_in_blocks [] 0 350).2.1,
    (cam_queue_recorded_in_blocks [] 0 350).2.2.1⟩
  rw [(cam_queue_recorded_in_blocks [] 0 350).1]
  rw [show ((350 : ℕ) : ℚ) / (BATCH_SIZE : ℚ) = 7/4 by norm_num [BATCH_SIZE]]
  norm_num [Nat.ceil_eq_iff]

/-- Unfolding equation for `lossy_gate_run` on a cons cell. -/
theorem lossy_gate_run_cons {α : Type} (c : ℤ) (a : α) (rest : List α) :
    lossy_gate_run c (a :: rest) =
      ((lossy_gate_run (lossy_gate_step c).1 rest).1,
        if (lossy_gate_step c).2 then
          a :: (lossy_gate_run (lossy_gate_step c).1 rest).2
        else (lossy_gate_run (lossy_gate_step c).1 rest).2) := rfl

/-- Helper: running a lane's lossy gate from a counter `c ≥ 0` over exactly
the arrivals that fill the batch (`c + length = BATCH_SIZE`) resets the
counter to `0` and lets precisely the last arrival — the one whose
increment makes the counter reach `BATCH_SIZE` — through, unchanged. -/
theorem lossy_gate_run_fills {α : Type} (as : List α) :
    ∀ c : ℤ, 0 ≤ c → c + as.length = (BATCH_SIZE : ℤ) →
      ∀ hne : as ≠ [], lossy_gate_run c as = (0, [as.getLast hne]) := by
  have hB : ((BATCH_SIZE : ℕ) : ℤ) = 200 := by norm_num [BATCH_SIZE]
  induction as with
  | nil => intro c _ _ hne; exact absurd rfl hne
  | cons a rest ih =>
      intro c hc hlen hne
      cases rest with
      | nil =>
          have hc1 : c + 1 = (BATCH_SIZE : ℤ) := by simpa using hlen
          simp [lossy_gate_run, lossy_gate_step, hc1, List.getLast]
      | cons b rest2 =>
          simp only [List.length_cons] at hlen
          push_cast at hlen
          have hlt : c + 1 ≠ (BATCH_SIZE : ℤ) := by
            rw [hB] at hlen ⊢
            omega
          have hstep : lossy_gate_step c = (c + 1, false) := by
            simp [lossy_gate_step, hlt]
          have htail := ih (c + 1) (by omega)
            (by simp only [List.length_cons]; push_cast; linarith)
            (List.cons_ne_nil b rest2)
          rw [lossy_gate_run_cons, hstep]
          dsimp only
          rw [htail]
          simp [List.getLast_cons (List.cons_ne_nil b rest2)]

/-- Claim C2: a lane's lossy gate lets an arrival proceed exactly when its
increment makes the lane counter reach `BATCH_SIZE`; over a full batch of
`BATCH_SIZE` arrivals starting from counter `0`, the sole survivor is the
last arrival, passed through unchanged — in particular with its own
arrival instant, since the payload (arrival time, job id) is untouched and
no delay is inserted between the gate test and the stage-B request — the
counter ends at `0`, and the remaining `BATCH_SIZE − 1` arrivals are
absent from the output: they exit the state machine without ever reaching
the stage-B request or the `jobs_terminated += 1` statement, which in the
source lie inside the `if counter == BATCH_SIZE` branch. -/
theorem lossy_gate_single_survivor {α : Type} (as : List α)
    (h : as.length = BATCH_SIZE) (hne : as ≠ []) :
    lossy_gate_run 0 as = (0, [as.getLast hne]) ∧
    (∀ c : ℤ, (lossy_gate_step c).2 = true ↔ c + 1 = (BATCH_SIZE : ℤ)) ∧
    (lossy_gate_run 0 as).2.length = 1 ∧
    as.length - (lossy_gate_run 0 as).2.length = BATCH_SIZE - 1 := by
  have hrun := lossy_gate_run_fills as 0 le_rfl (by rw [h]; ring) hne
  refine ⟨hrun, ?_, ?_, ?_⟩
  · intro c
    simp only [lossy_gate_step]
    split_ifs with hcond <;> simp [hcond]
  · rw [hrun]
    rfl
  · rw [hrun, h]
    rfl

/-- Witness for C2: a batch of 200 concrete arrivals `0, …, 199`; only the
200th (payload `199`) survives and the counter is reset. -/
theorem lossy_gate_single_survivor_witness :
    lossy_gate_run 0 (List.range BATCH_SIZE) = (0, [199]) := by
  have hne : List.range BATCH_SIZE ≠ [] := by
    simp [BATCH_SIZE]
  have hlast : (List.range BATCH_SIZE).getLast hne = 199 := by
    have h1 : (List.range BATCH_SIZE).getLast? = some 199 := by decide
    have h2 := List.getLast?_eq_getLast (List.range BATCH_SIZE) hne
    rw [h1] at h2
    exact (Option.some.injEq _ _).mp h2.symm
  have := (lossy_gate_single_survivor (List.range BATCH_SIZE)
    (List.length_range _) hne).1
  rw [this, hlast]

/-- Claim C10: from any counter value in `[0, BATCH_SIZE)` — `0` at module
load — one gate step (the `+= 1` and the conditional reset, executed
between suspension points) either increments the counter by exactly one,
staying below `BATCH_SIZE`, or resets it to `0` in the very step in which
it reaches `BATCH_SIZE`; hence after any sequence of arrivals the counter
is again in `[0, BATCH_SIZE)`: it never goes negative and never exceeds
`BATCH_SIZE`. -/
theorem lane_counter_invariant (c : ℤ) (as : List ℕ)
    (h0 : 0 ≤ c) (h1 : c < (BATCH_SIZE : ℤ)) :
    (0 ≤ (lossy_gate_step c).1 ∧ (lossy_gate_step c).1 < (BATCH_SIZE : ℤ)) ∧
    (c + 1 < (BATCH_SIZE : ℤ) → (lossy_gate_step c).1 = c + 1) ∧
    (c + 1 = (BATCH_SIZE : ℤ) → (lossy_gate_step c).1 = 0) ∧
    (0 ≤ (lossy_gate_run c as).1 ∧ (lossy_gate_run c as).1 < (BATCH_SIZE : ℤ)) := by
  have hB : ((BATCH_SIZE : ℕ) : ℤ) = 200 := by norm_num [BATCH_SIZE]
  have hstep : ∀ d : ℤ, 0 ≤ d → d < (BATCH_SIZE : ℤ) →
      0 ≤ (lossy_gate_step d).1 ∧ (lossy_gate_step d).1 < (BATCH_SIZE : ℤ) := by
    intro d hd0 hd1
    simp only [lossy_gate_step]
    split_ifs with hcond <;> dsimp only <;> rw [hB] at hd1 hcond ⊢ <;> omega
  refine ⟨hstep c h0 h1, ?_, ?_, ?_⟩
  · intro hlt
    have hne2 : c + 1 ≠ (BATCH_SIZE : ℤ) := by omega
    simp [lossy_gate_step, hne2]
  · intro heq
    simp [lossy_gate_step, heq]
  · induction as generalizing c with
    | nil => exact ⟨h0, h1⟩
    | cons a rest ih =>
        have hs := hstep c h0 h1
        have hrest := ih (lossy_gate_step c).1 hs.1 hs.2
        rw [lossy_gate_run_cons]
        exact hrest

/-- Witness for C10: three arrivals from the initial counter `0`. -/
theorem lane_counter_invariant_witness :
    0 ≤ (lossy_gate_run 0 [7, 8, 9]).1 ∧
    (lossy_gate_run 0 [7, 8, 9]).1 < (BATCH_SIZE : ℤ) :=
  (lane_counter_invariant 0 [7, 8, 9] le_rfl
    (by norm_num [BATCH_SIZE])).2.2.2

/-- Claim C1, evaluated on the code at the failing input (threshold 3,
jobs 1, 2, 3 arriving): after the third `assemble` call the counter is
reset to 0 and one release has fired, but the three callers wait on events
`0, 0, 1` respectively — the triggering third arrival received the fresh
`release_event` created *before* `release.succeed()` is called, so only
jobs 1 and 2 are resumed at the release instant while job 3 stays parked
until a *later* batch fills.  Consequently, in the
`pyhtonsimulationwithstatistics.py` accounting each of the two resumed
members sees `batch_count == 0` and increments `stats.assembled_batches`,
so that counter grows by 2 per batch, not by 1 (in
`PySimWOAssemblerWorks.py` the assembler's own field grows by exactly 1,
but the triggering arrival is still never released with its batch). -/
theorem batch_assembler_trigger_not_released :
    (assemble_run 3 AssemblerState.init [1, 2, 3]).1.batch_count = 0 ∧
    (assemble_run 3 AssemblerState.init [1, 2, 3]).1.assembled_batches = 1 ∧
    (assemble_run 3 AssemblerState.init [1, 2, 3]).2 = [(1, 0), (2, 0), (3, 1)] ∧
    (assemble_run 3 AssemblerState.init [1, 2, 3]).1.fired = 1 ∧
    resumed_jobs (assemble_run 3 AssemblerState.init [1, 2, 3]).1
      (assemble_run 3 AssemblerState.init [1, 2, 3]).2 = [1, 2] ∧
    member_batch_increments (assemble_run 3 AssemblerState.init [1, 2, 3]).1
      (assemble_run 3 AssemblerState.init [1, 2, 3]).2 = 2 := by
  decide

/-- Claim C7: the final report is a function of the configuration
(`max_jobs`) and the pseudo-random seed alone — two executions with
identical parameters and identical seed yield identical values on every
counter (`jobs_generated`, `jobs_terminated`, `priority_1_count`) and on
the computed averages, because the run consumes one deterministic stream
derived from the seed and contains no other source of variation. -/
theorem run_report_deterministic (max_jobs seed₁ seed₂ : ℕ)
    (h : seed₁ = seed₂) :
    run_report max_jobs seed₁ = run_report max_jobs seed₂ := by
  rw [h]

/-- Witness for C7: two runs with the source's seed 42 agree. -/
theorem run_report_deterministic_witness :
    run_report 5 42 = run_report 5 42 :=
  run_report_deterministic 5 42 42 rfl

end Simulacio
